import Mathlib

/-!
# DotWriter: identifier manager and enum string catalog

A shallow embedding of `src/IdManager.h` and `src/Enums.cpp`, followed by the
properties established about them.

* The `strings` tables and the `ToString` functions are transcribed from
  `src/Enums.cpp`.  `Enums.h` (the enum declarations, and with them each
  domain's `COUNT` enumerator) is not among the sources, so `COUNT` is an
  argument of `ToString`.  `ToString` is the function on the values from 0 on;
  `ToStringInt` is the same body on every value the signed comparison of its
  guard can see, the negative ones included.
* `IdManager`, its three counter accessors, `RegisterId` and the constructor are
  transcribed from `src/IdManager.h`; the accessors wrap at `ULONG_MAX` as the
  `unsigned long` of the source does.  `GetNodeId`, `GetSubgraphId` and
  `ValidateCustomId` are only declared there; their bodies are modelled from the
  specification, whose counters only ever increase.
-/

namespace DotWriter

/-! ## Enums.cpp: the string tables -/

/-- Table `Color::strings` (src/Enums.cpp), 656 entries. -/
def Color.strings : List String :=
  ["", "aliceblue", "antiquewhite", "antiquewhite1", "antiquewhite2", "antiquewhite3",
   "antiquewhite4", "aquamarine", "aquamarine1", "aquamarine2", "aquamarine3", "aquamarine4",
   "azure", "azure1", "azure2", "azure3", "azure4", "beige", "bisque", "bisque1", "bisque2",
   "bisque3", "bisque4", "black", "blanchedalmond", "blue", "blue1", "blue2", "blue3", "blue4",
   "blueviolet", "brown", "brown1", "brown2", "brown3", "brown4", "burlywood", "burlywood1",
   "burlywood2", "burlywood3", "burlywood4", "cadetblue", "cadetblue1", "cadetblue2",
   "cadetblue3", "cadetblue4", "chartreuse", "chartreuse1", "chartreuse2", "chartreuse3",
   "chartreuse4", "chocolate", "chocolate1", "chocolate2", "chocolate3", "chocolate4", "coral",
   "coral1", "coral2", "coral3", "coral4", "cornflowerblue", "cornsilk", "cornsilk1",
   "cornsilk2", "cornsilk3", "cornsilk4", "crimson", "cyan", "cyan1", "cyan2", "cyan3", "cyan4",
   "darkgoldenrod", "darkgoldenrod1", "darkgoldenrod2", "darkgoldenrod3", "darkgoldenrod4",
   "darkgreen", "darkkhaki", "darkolivegreen", "darkolivegreen1", "darkolivegreen2",
   "darkolivegreen3", "darkolivegreen4", "darkorange", "darkorange1", "darkorange2",
   "darkorange3", "darkorange4", "darkorchid", "darkorchid1", "darkorchid2", "darkorchid3",
   "darkorchid4", "darksalmon", "darkseagreen", "darkseagreen1", "darkseagreen2",
   "darkseagreen3", "darkseagreen4", "darkslateblue", "darkslategray", "darkslategray1",
   "darkslategray2", "darkslategray3", "darkslategray4", "darkslategrey", "darkturquoise",
   "darkviolet", "deeppink", "deeppink1", "deeppink2", "deeppink3", "deeppink4", "deepskyblue",
   "deepskyblue1", "deepskyblue2", "deepskyblue3", "deepskyblue4", "dimgray", "dimgrey",
   "dodgerblue", "dodgerblue1", "dodgerblue2", "dodgerblue3", "dodgerblue4", "firebrick",
   "firebrick1", "firebrick2", "firebrick3", "firebrick4", "floralwhite", "forestgreen",
   "gainsboro", "ghostwhite", "gold", "gold1", "gold2", "gold3", "gold4", "goldenrod",
   "goldenrod1", "goldenrod2", "goldenrod3", "goldenrod4", "gray", "gray0", "gray1", "gray10",
   "gray100", "gray11", "gray12", "gray13", "gray14", "gray15", "gray16", "gray17", "gray18",
   "gray19", "gray2", "gray20", "gray21", "gray22", "gray23", "gray24", "gray25", "gray26",
   "gray27", "gray28", "gray29", "gray3", "gray30", "gray31", "gray32", "gray33", "gray34",
   "gray35", "gray36", "gray37", "gray38", "gray39", "gray4", "gray40", "gray41", "gray42",
   "gray43", "gray44", "gray45", "gray46", "gray47", "gray48", "gray49", "gray5", "gray50",
   "gray51", "gray52", "gray53", "gray54", "gray55", "gray56", "gray57", "gray58", "gray59",
   "gray6", "gray60", "gray61", "gray62", "gray63", "gray64", "gray65", "gray66", "gray67",
   "gray68", "gray69", "gray7", "gray70", "gray71", "gray72", "gray73", "gray74", "gray75",
   "gray76", "gray77", "gray78", "gray79", "gray8", "gray80", "gray81", "gray82", "gray83",
   "gray84", "gray85", "gray86", "gray87", "gray88", "gray89", "gray9", "gray90", "gray91",
   "gray92", "gray93", "gray94", "gray95", "gray96", "gray97", "gray98", "gray99", "green",
   "green1", "green2", "green3", "green4", "greenyellow", "grey", "grey0", "grey1", "grey10",
   "grey100", "grey11", "grey12", "grey13", "grey14", "grey15", "grey16", "grey17", "grey18",
   "grey19", "grey2", "grey20", "grey21", "grey22", "grey23", "grey24", "grey25", "grey26",
   "grey27", "grey28", "grey29", "grey3", "grey30", "grey31", "grey32", "grey33", "grey34",
   "grey35", "grey36", "grey37", "grey38", "grey39", "grey4", "grey40", "grey41", "grey42",
   "grey43", "grey44", "grey45", "grey46", "grey47", "grey48", "grey49", "grey5", "grey50",
   "grey51", "grey52", "grey53", "grey54", "grey55", "grey56", "grey57", "grey58", "grey59",
   "grey6", "grey60", "grey61", "grey62", "grey63", "grey64", "grey65", "grey66", "grey67",
   "grey68", "grey69", "grey7", "grey70", "grey71", "grey72", "grey73", "grey74", "grey75",
   "grey76", "grey77", "grey78", "grey79", "grey8", "grey80", "grey81", "grey82", "grey83",
   "grey84", "grey85", "grey86", "grey87", "grey88", "grey89", "grey9", "grey90", "grey91",
   "grey92", "grey93", "grey94", "grey95", "grey96", "grey97", "grey98", "grey99", "honeydew",
   "honeydew1", "honeydew2", "honeydew3", "honeydew4", "hotpink", "hotpink1", "hotpink2",
   "hotpink3", "hotpink4", "indianred", "indianred1", "indianred2", "indianred3", "indianred4",
   "indigo", "invis", "ivory", "ivory1", "ivory2", "ivory3", "ivory4", "khaki", "khaki1",
   "khaki2", "khaki3", "khaki4", "lavender", "lavenderblush", "lavenderblush1", "lavenderblush2",
   "lavenderblush3", "lavenderblush4", "lawngreen", "lemonchiffon", "lemonchiffon1",
   "lemonchiffon2", "lemonchiffon3", "lemonchiffon4", "lightblue", "lightblue1", "lightblue2",
   "lightblue3", "lightblue4", "lightcoral", "lightcyan", "lightcyan1", "lightcyan2",
   "lightcyan3", "lightcyan4", "lightgoldenrod", "lightgoldenrod1", "lightgoldenrod2",
   "lightgoldenrod3", "lightgoldenrod4", "lightgoldenrodyellow", "lightgray", "lightgrey",
   "lightpink", "lightpink1", "lightpink2", "lightpink3", "lightpink4", "lightsalmon",
   "lightsalmon1", "lightsalmon2", "lightsalmon3", "lightsalmon4", "lightseagreen",
   "lightskyblue", "lightskyblue1", "lightskyblue2", "lightskyblue3", "lightskyblue4",
   "lightslateblue", "lightslategray", "lightslategrey", "lightsteelblue", "lightsteelblue1",
   "lightsteelblue2", "lightsteelblue3", "lightsteelblue4", "lightyellow", "lightyellow1",
   "lightyellow2", "lightyellow3", "lightyellow4", "limegreen", "linen", "magenta", "magenta1",
   "magenta2", "magenta3", "magenta4", "maroon", "maroon1", "maroon2", "maroon3", "maroon4",
   "mediumaquamarine", "mediumblue", "mediumorchid", "mediumorchid1", "mediumorchid2",
   "mediumorchid3", "mediumorchid4", "mediumpurple", "mediumpurple1", "mediumpurple2",
   "mediumpurple3", "mediumpurple4", "mediumseagreen", "mediumslateblue", "mediumspringgreen",
   "mediumturquoise", "mediumvioletred", "midnightblue", "mintcream", "mistyrose", "mistyrose1",
   "mistyrose2", "mistyrose3", "mistyrose4", "moccasin", "navajowhite", "navajowhite1",
   "navajowhite2", "navajowhite3", "navajowhite4", "navy", "navyblue", "none", "oldlace",
   "olivedrab", "olivedrab1", "olivedrab2", "olivedrab3", "olivedrab4", "orange", "orange1",
   "orange2", "orange3", "orange4", "orangered", "orangered1", "orangered2", "orangered3",
   "orangered4", "orchid", "orchid1", "orchid2", "orchid3", "orchid4", "palegoldenrod",
   "palegreen", "palegreen1", "palegreen2", "palegreen3", "palegreen4", "paleturquoise",
   "paleturquoise1", "paleturquoise2", "paleturquoise3", "paleturquoise4", "palevioletred",
   "palevioletred1", "palevioletred2", "palevioletred3", "palevioletred4", "papayawhip",
   "peachpuff", "peachpuff1", "peachpuff2", "peachpuff3", "peachpuff4", "peru", "pink", "pink1",
   "pink2", "pink3", "pink4", "plum", "plum1", "plum2", "plum3", "plum4", "powderblue", "purple",
   "purple1", "purple2", "purple3", "purple4", "red", "red1", "red2", "red3", "red4",
   "rosybrown", "rosybrown1", "rosybrown2", "rosybrown3", "rosybrown4", "royalblue",
   "royalblue1", "royalblue2", "royalblue3", "royalblue4", "saddlebrown", "salmon", "salmon1",
   "salmon2", "salmon3", "salmon4", "sandybrown", "seagreen", "seagreen1", "seagreen2",
   "seagreen3", "seagreen4", "seashell", "seashell1", "seashell2", "seashell3", "seashell4",
   "sienna", "sienna1", "sienna2", "sienna3", "sienna4", "skyblue", "skyblue1", "skyblue2",
   "skyblue3", "skyblue4", "slateblue", "slateblue1", "slateblue2", "slateblue3", "slateblue4",
   "slategray", "slategray1", "slategray2", "slategray3", "slategray4", "slategrey", "snow",
   "snow1", "snow2", "snow3", "snow4", "springgreen", "springgreen1", "springgreen2",
   "springgreen3", "springgreen4", "steelblue", "steelblue1", "steelblue2", "steelblue3",
   "steelblue4", "tan", "tan1", "tan2", "tan3", "tan4", "thistle", "thistle1", "thistle2",
   "thistle3", "thistle4", "tomato", "tomato1", "tomato2", "tomato3", "tomato4", "transparent",
   "turquoise", "turquoise1", "turquoise2", "turquoise3", "turquoise4", "violet", "violetred",
   "violetred1", "violetred2", "violetred3", "violetred4", "wheat", "wheat1", "wheat2", "wheat3",
   "wheat4", "white", "whitesmoke", "yellow", "yellow1", "yellow2", "yellow3", "yellow4",
   "yellowgreen"]

/-- Table `NodeShape::strings` (src/Enums.cpp), 36 entries. -/
def NodeShape.strings : List String :=
  ["", "box", "polygon", "ellipse", "oval", "circle", "point", "egg", "triangle", "plaintext",
   "diamond", "trapezium", "parallelogram", "house", "pentagon", "hexagon", "septagon",
   "octagon", "doublecircle", "doubleoctagon", "tripleoctagon", "invtriangle", "invtrapezium",
   "invhouse", "Mdiamond", "Msquare", "Mcircle", "rect", "rectangle", "square", "none", "note",
   "tab", "folder", "box3d", "component"]

/-- Table `EdgeStyle::strings` (src/Enums.cpp), 7 entries. -/
def EdgeStyle.strings : List String :=
  ["", "dashed", "dotted", "solid", "invis", "bold", "tapered"]

/-- Table `NodeStyle::strings` (src/Enums.cpp), 10 entries. -/
def NodeStyle.strings : List String :=
  ["", "dashed", "dotted", "solid", "invis", "bold", "filled", "diagonals", "rounded", "radial"]

/-- Table `EdgeArrowTypeName::strings` (src/Enums.cpp), 20 entries. -/
def EdgeArrowTypeName.strings : List String :=
  ["", "normal", "inv", "dot", "invdot", "odot", "invodot", "none", "tee", "empty", "invempty",
   "diamond", "odiamond", "ediamond", "crow", "box", "obox", "open", "halfopen", "vee"]

/-- Table `Charset::strings` (src/Enums.cpp), 3 entries. -/
def Charset.strings : List String :=
  ["", "UTF-8", "Latin1"]

/-- Table `ClusterMode::strings` (src/Enums.cpp), 4 entries. -/
def ClusterMode.strings : List String :=
  ["", "local", "global", "none"]

/-- Table `DirEdgeConstraints::strings` (src/Enums.cpp), 3 entries. -/
def DirEdgeConstraints.strings : List String :=
  ["", "true", "hier"]

/-- Table `Justification::strings` (src/Enums.cpp), 3 entries. -/
def Justification.strings : List String :=
  ["", "l", "r"]

/-- Table `LabelLoc::strings` (src/Enums.cpp), 4 entries. -/
def LabelLoc.strings : List String :=
  ["", "t", "b", "c"]

/-- Table `Mode::strings` (src/Enums.cpp), 5 entries. -/
def Mode.strings : List String :=
  ["", "major", "KK", "hier", "ipsep"]

/-- Table `Model::strings` (src/Enums.cpp), 4 entries. -/
def Model.strings : List String :=
  ["", "circuit", "subset", "mds"]

/-- Table `Ordering::strings` (src/Enums.cpp), 3 entries. -/
def Ordering.strings : List String :=
  ["", "out", "in"]

/-- Table `OutputMode::strings` (src/Enums.cpp), 4 entries. -/
def OutputMode.strings : List String :=
  ["", "breadthfirst", "nodesfirst", "edgesfirst"]

/-- Table `PageDir::strings` (src/Enums.cpp), 9 entries. -/
def PageDir.strings : List String :=
  ["", "BL", "BR", "TL", "TR", "RB", "RT", "LB", "LT"]

/-- Table `QuadType::strings` (src/Enums.cpp), 4 entries. -/
def QuadType.strings : List String :=
  ["", "normal", "fast", "none"]

/-- Table `RankType::strings` (src/Enums.cpp), 6 entries. -/
def RankType.strings : List String :=
  ["", "same", "min", "source", "max", "sink"]

/-- Table `RankDir::strings` (src/Enums.cpp), 5 entries. -/
def RankDir.strings : List String :=
  ["", "TB", "LR", "BT", "RL"]

/-- Table `Ratio::strings` (src/Enums.cpp), 5 entries. -/
def Ratio.strings : List String :=
  ["", "fill", "compress", "expand", "auto"]

/-- Table `SmoothType::strings` (src/Enums.cpp), 8 entries. -/
def SmoothType.strings : List String :=
  ["", "none", "avg_dist", "graph_dist", "power_dist", "rng", "spring", "triangle"]

/-- Table `SplineType::strings` (src/Enums.cpp), 7 entries. -/
def SplineType.strings : List String :=
  ["", "line", "spline", "polyline", "ortho", "compound", "count"]

/-- Table `ImageScaleType::strings` (src/Enums.cpp), 4 entries. -/
def ImageScaleType.strings : List String :=
  ["", "width", "height", "both"]

/-- Table `DirType::strings` (src/Enums.cpp), 5 entries. -/
def DirType.strings : List String :=
  ["", "forward", "back", "both", "none"]

/-- Table `CompassPoint::strings` (src/Enums.cpp), 10 entries. -/
def CompassPoint.strings : List String :=
  ["", "n", "ne", "e", "se", "s", "sw", "w", "nw", "c"]

/-- Table `AttributeType::strings` (src/Enums.cpp), 160 entries. -/
def AttributeType.strings : List String :=
  ["", "Damping", "K", "URL", "area", "arrowhead", "arrowsize", "arrowtail", "aspect", "bb",
   "bgcolor", "center", "charset", "clusterrank", "color", "colorscheme", "comment", "compound",
   "concentrate", "constraint", "decorate", "defaultdist", "dim", "dimen", "dir",
   "diredgeconstraints", "distortion", "dpi", "edgeurl", "edgehref", "edgetarget", "edgetooltip",
   "epsilon", "esep", "fillcolor", "fixedsize", "fontcolor", "fontname", "fontnames", "fontpath",
   "fontsize", "forcelabels", "gradientangle", "group", "headurl", "headclip", "headhref",
   "headlabel", "headport", "headtarget", "headtooltip", "height", "href", "id", "image",
   "imagepath", "imagescale", "label", "labelurl", "label_scheme", "labelangle", "labeldistance",
   "labelfloat", "labelfontcolor", "labelfontname", "labelfontsize", "labelhref", "labeljust",
   "labelloc", "labeltarget", "labeltooltip", "landscape", "layer", "layers", "layerselect",
   "layersep", "layout", "len", "levels", "levelsgap", "lhead", "lheight", "lp", "ltail",
   "lwidth", "margin", "maxiter", "mclimit", "mindist", "minlen", "mode", "model", "mosek",
   "nodesep", "nojustify", "normalize", "nslimit", "nslimit1", "ordering", "orientation",
   "outputorder", "overlap", "overlap_scaling", "pack", "packmode", "pad", "page", "pagedir",
   "pencolor", "penwidth", "peripheries", "pin", "pos", "quadtree", "quantum", "rank", "rankdir",
   "ranksep", "ratio", "rects", "regular", "remincross", "repulsiveforce", "resolution", "root",
   "rotate", "rotation", "samehead", "sametail", "samplepoints", "scale", "searchsize", "sep",
   "shape", "showboxes", "sides", "size", "skew", "smoothing", "sortv", "splines", "start",
   "style", "stylesheet", "tailurl", "tailclip", "tailhref", "taillabel", "tailport",
   "tailtarget", "tailtooltip", "target", "tooltip", "truecolor", "vertices", "viewport",
   "voro_margin", "weight", "width", "xlabel"]

/-! ## Enums.cpp: the domains and `ToString` -/

/-- The 25 enum classes for which `src/Enums.cpp` authors a `strings` table, in the order of
the file. -/
inductive Domain where
  | Color | NodeShape | EdgeStyle | NodeStyle | EdgeArrowTypeName | Charset | ClusterMode
  | DirEdgeConstraints | Justification | LabelLoc | Mode | Model | Ordering | OutputMode
  | PageDir | QuadType | RankType | RankDir | Ratio | SmoothType | SplineType | ImageScaleType
  | DirType | CompassPoint | AttributeType
deriving DecidableEq, Fintype

/-- The `strings` table of a domain. -/
def Domain.strings : Domain → List String
  | .Color => Color.strings
  | .NodeShape => NodeShape.strings
  | .EdgeStyle => EdgeStyle.strings
  | .NodeStyle => NodeStyle.strings
  | .EdgeArrowTypeName => EdgeArrowTypeName.strings
  | .Charset => Charset.strings
  | .ClusterMode => ClusterMode.strings
  | .DirEdgeConstraints => DirEdgeConstraints.strings
  | .Justification => Justification.strings
  | .LabelLoc => LabelLoc.strings
  | .Mode => Mode.strings
  | .Model => Model.strings
  | .Ordering => Ordering.strings
  | .OutputMode => OutputMode.strings
  | .PageDir => PageDir.strings
  | .QuadType => QuadType.strings
  | .RankType => RankType.strings
  | .RankDir => RankDir.strings
  | .Ratio => Ratio.strings
  | .SmoothType => SmoothType.strings
  | .SplineType => SplineType.strings
  | .ImageScaleType => ImageScaleType.strings
  | .DirType => DirType.strings
  | .CompassPoint => CompassPoint.strings
  | .AttributeType => AttributeType.strings

/-- Whether `src/Enums.cpp` defines `ToString` for the domain: it does for every domain except
`Ordering`, which has a table only. -/
def Domain.hasToString : Domain → Bool
  | .Ordering => false
  | _ => true

/-- The constant `emptyString` of `src/Enums.cpp`. -/
def emptyString : String := ""

/-- The body shared, word for word, by the 24 `ToString` functions of `src/Enums.cpp`:
`if (val < COUNT) return strings[val]; return emptyString;`.

`COUNT` is the domain's last enumerator, declared in `Enums.h`, which is not among the sources,
so it is an argument.  This is the function on the values from 0 on (the values of the
variants among them); `ToStringInt` adds the negative ones.  The result is `none` exactly
when the C++ would read `strings` past its end. -/
def ToString (d : Domain) (COUNT : Nat) (val : Nat) : Option String :=
  if val < COUNT then (d.strings)[val]? else some emptyString

/-- The same body, `if (val < COUNT) return strings[val]; return emptyString;`, on every
value the guard can see.  Both operands of `val < COUNT` are values of the unscoped enum `e`,
so the comparison is made on signed integers, and a value cast from a negative number passes
it; `strings[val]` is then a read before the first entry of the table.  The result is `none`
exactly when the C++ would read outside `strings`, before its start or past its end. -/
def ToStringInt (d : Domain) (COUNT : Nat) (val : Int) : Option String :=
  if val < (COUNT : Int) then
    (if 0 ≤ val then (d.strings)[val.toNat]? else none)
  else some emptyString

/-! ## IdManager.h -/

/-- The largest value of an `unsigned long` (64 bits, as on the LP64 platforms), `ULONG_MAX`
of `<climits>`: 2^64 - 1. -/
def ULONG_MAX : Nat := 18446744073709551615

/-- The state of class `IdManager`: three `unsigned long` counters and the `std::set` of the
identifiers handed out so far.  A counter holds a number from 0 to `ULONG_MAX`; the
constructor and the accessors keep it there. -/
structure IdManager where
  _nextNodeIdNum : Nat
  _nextSubgraphIdNum : Nat
  _nextCustomIdNum : Nat
  _existingIds : Finset String
deriving DecidableEq

/-- The constructor `IdManager()`: all counters zero, the set default-constructed (empty). -/
def IdManager.new : IdManager :=
  { _nextNodeIdNum := 0, _nextSubgraphIdNum := 0, _nextCustomIdNum := 0, _existingIds := ∅ }

/-- The accessor `GetNextNodeIdNum`: `return _nextNodeIdNum++;`, a post-increment of an
`unsigned long`: the old value is returned, and the new one is the old one plus one modulo
`ULONG_MAX + 1`. -/
def IdManager.GetNextNodeIdNum (m : IdManager) : Nat × IdManager :=
  (m._nextNodeIdNum, { m with _nextNodeIdNum := (m._nextNodeIdNum + 1) % (ULONG_MAX + 1) })

/-- The accessor `GetNextSubgraphIdNum`: `return _nextSubgraphIdNum++;`, as
`GetNextNodeIdNum`. -/
def IdManager.GetNextSubgraphIdNum (m : IdManager) : Nat × IdManager :=
  (m._nextSubgraphIdNum,
    { m with _nextSubgraphIdNum := (m._nextSubgraphIdNum + 1) % (ULONG_MAX + 1) })

/-- The accessor `GetNextCustomIdNum`: `return _nextCustomIdNum++;`, as
`GetNextNodeIdNum`. -/
def IdManager.GetNextCustomIdNum (m : IdManager) : Nat × IdManager :=
  (m._nextCustomIdNum,
    { m with _nextCustomIdNum := (m._nextCustomIdNum + 1) % (ULONG_MAX + 1) })

/-- The method `RegisterId`: `_existingIds.insert(id)` and the pair of the element the returned iterator
points at (the element of the set equal to `id`) and the flag telling whether the insertion
took place. -/
def IdManager.RegisterId (m : IdManager) (id : String) : (String × Bool) × IdManager :=
  ((id, decide (id ∉ m._existingIds)), { m with _existingIds := insert id m._existingIds })

/-- The three counters of an `IdManager`. -/
inductive Counter where
  | node | subgraph | custom
deriving DecidableEq

/-- The accessor of a counter, as `src/IdManager.h` defines it. -/
def IdManager.draw (c : Counter) (m : IdManager) : Nat × IdManager :=
  match c with
  | .node => m.GetNextNodeIdNum
  | .subgraph => m.GetNextSubgraphIdNum
  | .custom => m.GetNextCustomIdNum

/-- Modelled from the spec: the counter step inside `GetNodeId`, `GetSubgraphId` and
`ValidateCustomId`, whose bodies (IdManager.cpp) are missing: it yields the counter's current
value and advances the counter by one.  The counters of the spec are monotonic and strictly
increasing, and so is this one; the accessor of the source, `draw`, does the same whenever
the counter is below `ULONG_MAX` (`IdManager.draw_eq_next`). -/
def IdManager.next (c : Counter) (m : IdManager) : Nat × IdManager :=
  match c with
  | .node => (m._nextNodeIdNum, { m with _nextNodeIdNum := m._nextNodeIdNum + 1 })
  | .subgraph =>
    (m._nextSubgraphIdNum, { m with _nextSubgraphIdNum := m._nextSubgraphIdNum + 1 })
  | .custom => (m._nextCustomIdNum, { m with _nextCustomIdNum := m._nextCustomIdNum + 1 })

/-- The current value of a counter. -/
def IdManager.counter (c : Counter) (m : IdManager) : Nat :=
  match c with
  | .node => m._nextNodeIdNum
  | .subgraph => m._nextSubgraphIdNum
  | .custom => m._nextCustomIdNum

/-- The state with one counter set to `v`. -/
def IdManager.setCounter (c : Counter) (v : Nat) (m : IdManager) : IdManager :=
  match c with
  | .node => { m with _nextNodeIdNum := v }
  | .subgraph => { m with _nextSubgraphIdNum := v }
  | .custom => { m with _nextCustomIdNum := v }

/-- The state with `id` added to the committed identifiers. -/
def IdManager.commit (id : String) (m : IdManager) : IdManager :=
  { m with _existingIds := insert id m._existingIds }

/-- Modelled from the spec: the retry loop of `GetNodeId`, `GetSubgraphId` and
`ValidateCustomId`, whose bodies (IdManager.cpp) are missing.  One round builds the candidate
`base` followed by the textual form of the counter's current value, advances the counter, and
calls `RegisterId`; the rounds repeat until a candidate is accepted.  `fuel` bounds the number
of rounds, and the result is `none` when it is used up.  Next to the accepted identifier the
result lists the counter values of all the rounds, in order. -/
def IdManager.probe (c : Counter) (base : String) :
    Nat → IdManager → Option ((String × List Nat) × IdManager)
  | 0, _ => none
  | fuel + 1, m =>
    let n := m.next c
    let r := n.2.RegisterId (base ++ toString n.1)
    if r.1.2 then some ((r.1.1, [n.1]), r.2)
    else (IdManager.probe c base fuel r.2).map fun t => ((t.1.1, n.1 :: t.1.2), t.2)

/-- Modelled from the spec: `GetNodeId` (`newNodeId`), declared in `src/IdManager.h`, body
missing.  The candidates are the reserved node prefix `nodeBase` followed by the node counter;
the loop runs until `RegisterId` accepts one.  One round more than there are committed
identifiers is always enough (`probe_isSome`). -/
def IdManager.GetNodeId (nodeBase : String) (m : IdManager) : Option (String × IdManager) :=
  (m.probe .node nodeBase (m._existingIds.card + 1)).map fun t => (t.1.1, t.2)

/-- Modelled from the spec: `GetSubgraphId` (`newSubgraphId`), declared in `src/IdManager.h`,
body missing.  As `GetNodeId`, with the subgraph counter and the reserved subgraph prefix. -/
def IdManager.GetSubgraphId (subgraphBase : String) (m : IdManager) :
    Option (String × IdManager) :=
  (m.probe .subgraph subgraphBase (m._existingIds.card + 1)).map fun t => (t.1.1, t.2)

/-- Modelled from the spec: `ValidateCustomId` (`resolveCustomId`), declared in
`src/IdManager.h`, body missing, together with the counter values of its disambiguation
rounds.  Step 1 registers `customId` itself; on a collision steps 2 and 3 are the retry loop on
the shared counter `_nextCustomIdNum`. -/
def IdManager.ValidateCustomIdTraced (m : IdManager) (customId : String) :
    Option ((String × List Nat) × IdManager) :=
  let r := m.RegisterId customId
  if r.1.2 then some ((r.1.1, []), r.2)
  else r.2.probe .custom customId (r.2._existingIds.card + 1)

/-- Modelled from the spec: `ValidateCustomId` (`resolveCustomId`): the identifier returned and
the state left by `ValidateCustomIdTraced`. -/
def IdManager.ValidateCustomId (m : IdManager) (customId : String) :
    Option (String × IdManager) :=
  (m.ValidateCustomIdTraced customId).map fun t => (t.1.1, t.2)

/-- A call of the public interface of `IdManager`. -/
inductive Call where
  | GetNodeId
  | GetSubgraphId
  | ValidateCustomId (customId : String)
deriving DecidableEq

/-- One call of the public interface, with the reserved prefixes `nodeBase` and
`subgraphBase`: the identifier returned, the disambiguation counter values it tried (empty
for the synthetic identifiers), and the state afterwards. -/
def IdManager.call (nodeBase subgraphBase : String) (m : IdManager) :
    Call → Option ((String × List Nat) × IdManager)
  | .GetNodeId => (m.GetNodeId nodeBase).map fun t => ((t.1, []), t.2)
  | .GetSubgraphId => (m.GetSubgraphId subgraphBase).map fun t => ((t.1, []), t.2)
  | .ValidateCustomId customId => m.ValidateCustomIdTraced customId

/-- A session: the calls are made in order, each on the state left by the one before.  The
result lists, per call, the identifier returned and the disambiguation counter values tried. -/
def IdManager.session (nodeBase subgraphBase : String) :
    IdManager → List Call → Option (List (String × List Nat) × IdManager)
  | m, [] => some ([], m)
  | m, c :: cs =>
    match m.call nodeBase subgraphBase c with
    | none => none
    | some (r, m1) =>
      (IdManager.session nodeBase subgraphBase m1 cs).map fun t => (r :: t.1, t.2)

/-! ## Reading back a decimal text (used to tell candidates apart) -/

/-- The value of a decimal digit character. -/
def digitValue (c : Char) : Nat := c.toNat - 48

/-- The number a list of decimal digit characters denotes, most significant digit first. -/
def decimalValue (l : List Char) : Nat := l.foldl (fun a c => 10 * a + digitValue c) 0

/-! ## Counting rejected registrations -/

/-- Lexicographic comparison of two lists of code points: whether the first is strictly
below the second. -/
def codesBelow : List Nat → List Nat → Bool
  | [], [] => false
  | [], _ :: _ => true
  | _ :: _, [] => false
  | a :: as, b :: bs => if a < b then true else if a = b then codesBelow as bs else false

/-- The code points of a string. -/
def codes (s : String) : List Nat := s.data.map Char.toNat

/-- Whether each string of the list is strictly below the next one. -/
def strictlyAscending : List String → Bool
  | a :: b :: t => codesBelow (codes a) (codes b) && strictlyAscending (b :: t)
  | _ => true

/-! ## Decimal text of a counter value -/

theorem digitValue_digitChar (k : Nat) (hk : k < 10) : digitValue (Nat.digitChar k) = k := by
  interval_cases k <;> rfl

theorem decimalValue_snoc (l : List Char) (c : Char) :
    decimalValue (l ++ [c]) = 10 * decimalValue l + digitValue c := by
  simp [decimalValue, List.foldl_append]

/-- What `Nat.toDigitsCore 10` puts in front of its accumulator is a non-empty list of
digits that denotes its argument. -/
theorem toDigitsCore_decimalValue (fuel : Nat) :
    ∀ (n : Nat) (ds : List Char), n < fuel →
      ∃ l, Nat.toDigitsCore 10 fuel n ds = l ++ ds ∧ decimalValue l = n ∧ l ≠ [] := by
  induction fuel with
  | zero => intro n ds h; omega
  | succ fuel ih =>
    intro n ds h
    by_cases h0 : n / 10 = 0
    · refine ⟨[Nat.digitChar (n % 10)], ?_, ?_, by simp⟩
      · simp [Nat.toDigitsCore, h0]
      · have hn : n % 10 = n := by omega
        have hd := digitValue_digitChar (n % 10) (Nat.mod_lt _ (by decide))
        rw [hn] at hd
        simp [decimalValue, hn, hd]
    · obtain ⟨l, hl, hv, _⟩ := ih (n / 10) (Nat.digitChar (n % 10) :: ds) (by omega)
      refine ⟨l ++ [Nat.digitChar (n % 10)], ?_, ?_, by simp⟩
      · simp [Nat.toDigitsCore, h0, hl]
      · rw [decimalValue_snoc, hv, digitValue_digitChar (n % 10) (Nat.mod_lt _ (by decide))]
        omega

theorem decimalValue_toString (n : Nat) : decimalValue (toString n).data = n := by
  obtain ⟨l, hl, hv, _⟩ := toDigitsCore_decimalValue (n + 1) n [] (Nat.lt_succ_self n)
  have : (toString n).data = l := by
    show (Nat.toDigits 10 n).asString.data = l
    simp [Nat.toDigits, List.asString, hl]
  rw [this, hv]

/-- Different numbers have different decimal texts. -/
theorem toString_nat_inj {a b : Nat} (h : toString a = toString b) : a = b := by
  have := congrArg (fun s : String => decimalValue s.data) h
  simpa [decimalValue_toString] using this

theorem toString_nat_data_ne_nil (n : Nat) : (toString n).data ≠ [] := by
  obtain ⟨l, hl, _, hne⟩ := toDigitsCore_decimalValue (n + 1) n [] (Nat.lt_succ_self n)
  have : (toString n).data = l := by
    show (Nat.toDigits 10 n).asString.data = l
    simp [Nat.toDigits, List.asString, hl]
  rw [this]; exact hne

theorem append_left_cancel {b s t : String} (h : b ++ s = b ++ t) : s = t := by
  have := congrArg String.data h
  simp only [String.data_append] at this
  exact String.ext (List.append_cancel_left this)

/-- The candidates built from one base and different counter values are different. -/
theorem candidate_inj {base : String} {a b : Nat}
    (h : base ++ toString a = base ++ toString b) : a = b :=
  toString_nat_inj (append_left_cancel h)

/-- A candidate with a number appended differs from its base. -/
theorem candidate_ne_base (base : String) (n : Nat) : base ++ toString n ≠ base := by
  intro h
  have := congrArg String.data h
  simp only [String.data_append] at this
  have h2 : (toString n).data = [] := by
    have := congrArg List.length this
    simp at this
    exact List.length_eq_zero.mp this
  exact toString_nat_data_ne_nil n h2

/-! ## The retry loop -/

theorem IdManager.RegisterId_fst (m : IdManager) (id : String) :
    (m.RegisterId id).1 = (id, decide (id ∉ m._existingIds)) := rfl

theorem IdManager.RegisterId_snd (m : IdManager) (id : String) :
    (m.RegisterId id).2 = m.commit id := rfl

@[simp] theorem IdManager.next_fst (c : Counter) (m : IdManager) :
    (m.next c).1 = m.counter c := by
  cases c <;> rfl

@[simp] theorem IdManager.next_snd (c : Counter) (m : IdManager) :
    (m.next c).2 = m.setCounter c (m.counter c + 1) := by
  cases c <;> rfl

@[simp] theorem IdManager.setCounter_existingIds (c : Counter) (v : Nat) (m : IdManager) :
    (m.setCounter c v)._existingIds = m._existingIds := by
  cases c <;> rfl

@[simp] theorem IdManager.counter_setCounter (c : Counter) (v : Nat) (m : IdManager) :
    (m.setCounter c v).counter c = v := by
  cases c <;> rfl

theorem IdManager.counter_setCounter_of_ne {c d : Counter} (h : d ≠ c) (v : Nat)
    (m : IdManager) : (m.setCounter c v).counter d = m.counter d := by
  cases c <;> cases d <;> first | rfl | exact absurd rfl h

@[simp] theorem IdManager.setCounter_setCounter (c : Counter) (v w : Nat) (m : IdManager) :
    (m.setCounter c v).setCounter c w = m.setCounter c w := by
  cases c <;> rfl

@[simp] theorem IdManager.commit_existingIds (id : String) (m : IdManager) :
    (m.commit id)._existingIds = insert id m._existingIds := rfl

@[simp] theorem IdManager.counter_commit (c : Counter) (id : String) (m : IdManager) :
    (m.commit id).counter c = m.counter c := by
  cases c <;> rfl

theorem IdManager.commit_setCounter (c : Counter) (v : Nat) (m : IdManager) (id : String) :
    (m.setCounter c v).commit id = (m.commit id).setCounter c v := by
  cases c <;> rfl

theorem IdManager.commit_of_mem (m : IdManager) {id : String} (h : id ∈ m._existingIds) :
    m.commit id = m := by
  cases m
  simp only [IdManager.commit, IdManager.mk.injEq, true_and]
  exact Finset.insert_eq_of_mem h

/-- Among the candidates `base ++ toString k` with `k` from `c0` on there is a least one that
is not committed, and it is at most `s.card` steps away. -/
theorem exists_least_free (base : String) (s : Finset String) (c0 : Nat) :
    ∃ k, c0 ≤ k ∧ k ≤ c0 + s.card ∧ base ++ toString k ∉ s ∧
      ∀ j, c0 ≤ j → j < k → base ++ toString j ∈ s := by
  have hinj : ∀ a b : Nat, base ++ toString (c0 + a) = base ++ toString (c0 + b) → a = b := by
    intro a b hab
    have := candidate_inj hab
    omega
  have hfull : ∀ n, (∀ j < n, base ++ toString (c0 + j) ∈ s) → n ≤ s.card := by
    intro n hall
    have hle : (Finset.range n).card ≤ s.card :=
      Finset.card_le_card_of_injOn (fun j => base ++ toString (c0 + j))
        (fun j hj => hall j (Finset.mem_range.mp hj))
        (fun a _ b _ hab => hinj a b hab)
    simpa using hle
  have hex : ∃ j, base ++ toString (c0 + j) ∉ s := by
    by_contra hall
    push_neg at hall
    have := hfull (s.card + 1) (fun j _ => hall j)
    omega
  classical
  refine ⟨c0 + Nat.find hex, Nat.le_add_right _ _, ?_, Nat.find_spec hex, ?_⟩
  · have := hfull (Nat.find hex) (fun j hj => not_not.mp (Nat.find_min hex hj))
    omega
  · intro j h1 h2
    have hj : j - c0 < Nat.find hex := by omega
    have := not_not.mp (Nat.find_min hex hj)
    rwa [Nat.add_sub_cancel' h1] at this

/-- The loop, run from a state where the candidates of the counter values `counter .. k-1` are
committed and the one of `k` is not, with fuel for `k - counter + 1` rounds: it returns the
candidate of `k` after trying exactly the counter values `counter .. k`, commits it, and
leaves the counter at `k + 1`. -/
theorem IdManager.probe_eq (c : Counter) (base : String) (fuel : Nat) :
    ∀ (m : IdManager) (k : Nat), m.counter c ≤ k → k - m.counter c < fuel →
      (∀ j, m.counter c ≤ j → j < k → base ++ toString j ∈ m._existingIds) →
      base ++ toString k ∉ m._existingIds →
      m.probe c base fuel =
        some ((base ++ toString k, List.range' (m.counter c) (k - m.counter c + 1)),
          (m.commit (base ++ toString k)).setCounter c (k + 1)) := by
  induction fuel with
  | zero => intro m k _ h; omega
  | succ fuel ih =>
    intro m k hk hfuel hbelow hfree
    by_cases hkc : k = m.counter c
    · subst hkc
      simp [IdManager.probe, IdManager.RegisterId_fst, IdManager.RegisterId_snd, hfree,
        IdManager.commit_setCounter]
    · have hlt : m.counter c < k := by omega
      have hmem := hbelow (m.counter c) (Nat.le_refl _) hlt
      have hstep := ih (m.setCounter c (m.counter c + 1)) k (by simpa using hlt)
        (by simp; omega)
        (fun j h1 h2 => by
          simp only [IdManager.counter_setCounter] at h1
          simpa using hbelow j (by omega) h2)
        (by simpa using hfree)
      have hins : (m.setCounter c (m.counter c + 1)).commit (base ++ toString (m.counter c)) =
          m.setCounter c (m.counter c + 1) :=
        IdManager.commit_of_mem _ (by simpa using hmem)
      have hlist : m.counter c :: List.range' (m.counter c + 1) (k - (m.counter c + 1) + 1) =
          List.range' (m.counter c) (k - m.counter c + 1) := by
        have : k - m.counter c + 1 = (k - (m.counter c + 1) + 1) + 1 := by omega
        conv_rhs => rw [this]
        rfl
      simp only [IdManager.counter_setCounter] at hstep
      simp only [IdManager.probe, IdManager.RegisterId_fst, IdManager.RegisterId_snd,
        IdManager.next_fst, IdManager.next_snd,
        IdManager.setCounter_existingIds, hmem, not_true_eq_false, decide_False,
        Bool.false_eq_true, if_false]
      rw [hins, hstep]
      simp [hlist, IdManager.commit_setCounter]

/-- The loop with one round more than there are committed identifiers: it always returns, with
the least free candidate from the counter on. -/
theorem IdManager.probe_total (c : Counter) (base : String) (m : IdManager) :
    ∃ k, m.counter c ≤ k ∧ base ++ toString k ∉ m._existingIds ∧
      (∀ j, m.counter c ≤ j → j < k → base ++ toString j ∈ m._existingIds) ∧
      m.probe c base (m._existingIds.card + 1) =
        some ((base ++ toString k, List.range' (m.counter c) (k - m.counter c + 1)),
          (m.commit (base ++ toString k)).setCounter c (k + 1)) := by
  obtain ⟨k, h1, h2, h3, h4⟩ := exists_least_free base m._existingIds (m.counter c)
  exact ⟨k, h1, h3, h4, IdManager.probe_eq c base _ m k h1 (by omega) h4 h3⟩

/-- Any fuel above the number of committed identifiers gives the loop's result. -/
theorem IdManager.probe_fuel_irrelevant (c : Counter) (base : String) (m : IdManager)
    (fuel : Nat) (h : m._existingIds.card < fuel) :
    m.probe c base fuel = m.probe c base (m._existingIds.card + 1) := by
  obtain ⟨k, h1, h2, h3, h4⟩ := exists_least_free base m._existingIds (m.counter c)
  rw [IdManager.probe_eq c base _ m k h1 (by omega) h4 h3,
    IdManager.probe_eq c base _ m k h1 (by omega) h4 h3]

/-- The call `ValidateCustomId` on an identifier that is not committed: step 1 accepts it. -/
theorem IdManager.ValidateCustomIdTraced_of_not_mem (m : IdManager) (customId : String)
    (h : customId ∉ m._existingIds) :
    m.ValidateCustomIdTraced customId = some ((customId, []), m.commit customId) := by
  simp [IdManager.ValidateCustomIdTraced, IdManager.RegisterId_fst, IdManager.RegisterId_snd, h]

/-- The call `ValidateCustomId` on a committed identifier: the loop finds the least free candidate. -/
theorem IdManager.ValidateCustomIdTraced_of_mem (m : IdManager) (customId : String)
    (h : customId ∈ m._existingIds) :
    ∃ k, m._nextCustomIdNum ≤ k ∧ customId ++ toString k ∉ m._existingIds ∧
      (∀ j, m._nextCustomIdNum ≤ j → j < k → customId ++ toString j ∈ m._existingIds) ∧
      m.ValidateCustomIdTraced customId =
        some ((customId ++ toString k,
            List.range' m._nextCustomIdNum (k - m._nextCustomIdNum + 1)),
          (m.commit (customId ++ toString k)).setCounter .custom (k + 1)) := by
  obtain ⟨k, h1, h2, h3, h4⟩ := IdManager.probe_total .custom customId m
  refine ⟨k, h1, h2, h3, ?_⟩
  have hc : m.commit customId = m := IdManager.commit_of_mem m h
  simp only [IdManager.ValidateCustomIdTraced, IdManager.RegisterId_fst,
    IdManager.RegisterId_snd, h, not_true_eq_false, decide_False, Bool.false_eq_true, if_false,
    hc]
  exact h4

/-- The call `ValidateCustomId` on a committed identifier, with the least free counter value given. -/
theorem IdManager.ValidateCustomIdTraced_of_least (m : IdManager) (customId : String) (k : Nat)
    (h : customId ∈ m._existingIds) (hk : m._nextCustomIdNum ≤ k)
    (hfree : customId ++ toString k ∉ m._existingIds)
    (hbelow : ∀ j, m._nextCustomIdNum ≤ j → j < k → customId ++ toString j ∈ m._existingIds) :
    m.ValidateCustomIdTraced customId =
      some ((customId ++ toString k,
          List.range' m._nextCustomIdNum (k - m._nextCustomIdNum + 1)),
        (m.commit (customId ++ toString k)).setCounter .custom (k + 1)) := by
  obtain ⟨k', h1, h2, h3, h4⟩ := IdManager.ValidateCustomIdTraced_of_mem m customId h
  have hkk : k' = k := by
    rcases Nat.lt_trichotomy k' k with hlt | heq | hgt
    · exact absurd (hbelow k' h1 hlt) h2
    · exact heq
    · exact absurd (h3 k hk hgt) hfree
  rw [h4, hkk]

/-- One call of the public interface, from any state: it returns an identifier that was not
committed, commits exactly that identifier, and the disambiguation counter values it tried
are those from the counter's value before the call up to its value afterwards. -/
theorem IdManager.call_spec (nodeBase subgraphBase : String) (m : IdManager) (c : Call) :
    ∃ id tr m', m.call nodeBase subgraphBase c = some ((id, tr), m') ∧
      id ∉ m._existingIds ∧ m'._existingIds = insert id m._existingIds ∧
      m._nextCustomIdNum ≤ m'._nextCustomIdNum ∧
      tr = List.range' m._nextCustomIdNum (m'._nextCustomIdNum - m._nextCustomIdNum) := by
  cases c with
  | GetNodeId =>
    obtain ⟨k, h1, h2, h3, h4⟩ := IdManager.probe_total .node nodeBase m
    refine ⟨nodeBase ++ toString k, [], (m.commit (nodeBase ++ toString k)).setCounter .node (k + 1),
      ?_, h2, by simp, Nat.le_refl _, ?_⟩
    · simp [IdManager.call, IdManager.GetNodeId, h4]
    · show [] = List.range' m._nextCustomIdNum (m._nextCustomIdNum - m._nextCustomIdNum)
      simp
  | GetSubgraphId =>
    obtain ⟨k, h1, h2, h3, h4⟩ := IdManager.probe_total .subgraph subgraphBase m
    refine ⟨subgraphBase ++ toString k, [],
      (m.commit (subgraphBase ++ toString k)).setCounter .subgraph (k + 1),
      ?_, h2, by simp, Nat.le_refl _, ?_⟩
    · simp [IdManager.call, IdManager.GetSubgraphId, h4]
    · show [] = List.range' m._nextCustomIdNum (m._nextCustomIdNum - m._nextCustomIdNum)
      simp
  | ValidateCustomId customId =>
    by_cases h : customId ∈ m._existingIds
    · obtain ⟨k, h1, h2, h3, h4⟩ := IdManager.ValidateCustomIdTraced_of_mem m customId h
      refine ⟨customId ++ toString k, _,
        (m.commit (customId ++ toString k)).setCounter .custom (k + 1), h4, h2, by simp, ?_, ?_⟩
      · show m._nextCustomIdNum ≤ k + 1
        omega
      · show _ = List.range' m._nextCustomIdNum (k + 1 - m._nextCustomIdNum)
        congr 1
        omega
    · refine ⟨customId, [], m.commit customId,
        IdManager.ValidateCustomIdTraced_of_not_mem m customId h, h, rfl, Nat.le_refl _, ?_⟩
      show [] = List.range' m._nextCustomIdNum (m._nextCustomIdNum - m._nextCustomIdNum)
      simp

/-- A session from any state: it runs to its end; the identifiers it returns are pairwise
distinct, were not committed at its start and are committed at its end; nothing committed is
lost; and the disambiguation counter values tried, in order over the whole session, are
exactly the values from the counter's start to its end. -/
theorem IdManager.session_spec (nodeBase subgraphBase : String) (calls : List Call) :
    ∀ m : IdManager, ∃ res m', m.session nodeBase subgraphBase calls = some (res, m') ∧
      res.length = calls.length ∧ (res.map Prod.fst).Nodup ∧
      (∀ id ∈ res.map Prod.fst, id ∉ m._existingIds ∧ id ∈ m'._existingIds) ∧
      m._existingIds ⊆ m'._existingIds ∧
      m._nextCustomIdNum ≤ m'._nextCustomIdNum ∧
      (res.map Prod.snd).flatten =
        List.range' m._nextCustomIdNum (m'._nextCustomIdNum - m._nextCustomIdNum) := by
  induction calls with
  | nil =>
    intro m
    exact ⟨[], m, rfl, rfl, by simp, by simp, Finset.Subset.refl _, Nat.le_refl _, by simp⟩
  | cons c cs ih =>
    intro m
    obtain ⟨id, tr, m1, h1, h2, h3, h4, h5⟩ := IdManager.call_spec nodeBase subgraphBase m c
    obtain ⟨res, m', g1, g0, g2, g3, g4, g5, g6⟩ := ih m1
    have hsub : m._existingIds ⊆ m1._existingIds := by
      rw [h3]; exact Finset.subset_insert _ _
    have hid : id ∈ m1._existingIds := by
      rw [h3]; exact Finset.mem_insert_self _ _
    refine ⟨(id, tr) :: res, m', ?_, by simp [g0], ?_, ?_, hsub.trans g4, by omega, ?_⟩
    · simp [IdManager.session, h1, g1]
    · simp only [List.map_cons, List.nodup_cons]
      exact ⟨fun hmem => (g3 id hmem).1 hid, g2⟩
    · intro x hx
      simp only [List.map_cons, List.mem_cons] at hx
      rcases hx with rfl | hx
      · exact ⟨h2, g4 hid⟩
      · exact ⟨fun hmem => (g3 x hx).1 (hsub hmem), (g3 x hx).2⟩
    · simp only [List.map_cons, List.flatten_cons, g6, h5]
      have e1 : m1._nextCustomIdNum =
          m._nextCustomIdNum + (m1._nextCustomIdNum - m._nextCustomIdNum) := by omega
      have e2 : m'._nextCustomIdNum - m._nextCustomIdNum =
          (m'._nextCustomIdNum - m1._nextCustomIdNum) +
            (m1._nextCustomIdNum - m._nextCustomIdNum) := by omega
      rw [e2, ← List.range'_append_1, ← e1]

/-! ## Properties of `RegisterId` -/

/-- C2: `RegisterId` always returns the candidate itself; its flag is true exactly when the
candidate was not committed before the call; the committed set afterwards is the old set plus
the candidate; and for a candidate that was not committed the result is `(candidate, true)`
and the set has grown by exactly that one element. -/
theorem IdManager.RegisterId_accepts_absent (m : IdManager) (id : String) :
    (m.RegisterId id).1.1 = id ∧
    ((m.RegisterId id).1.2 = true ↔ id ∉ m._existingIds) ∧
    (∀ x, x ∈ (m.RegisterId id).2._existingIds ↔ x = id ∨ x ∈ m._existingIds) ∧
    (id ∉ m._existingIds →
      (m.RegisterId id).1 = (id, true) ∧
      (m.RegisterId id).2._existingIds.card = m._existingIds.card + 1) := by
  refine ⟨rfl, by simp [IdManager.RegisterId_fst], ?_, ?_⟩
  · intro x
    simp [IdManager.RegisterId_snd]
  · intro h
    refine ⟨by simp [IdManager.RegisterId_fst, h], ?_⟩
    simp [IdManager.RegisterId_snd, Finset.card_insert_of_not_mem h]

/-- Witness for C2: registering "foo" with a fresh manager. -/
theorem IdManager.RegisterId_accepts_absent_witness :
    "foo" ∉ IdManager.new._existingIds ∧
    (IdManager.new.RegisterId "foo").1 = ("foo", true) ∧
    (IdManager.new.RegisterId "foo").2._existingIds.card = 1 :=
  ⟨by decide, (IdManager.RegisterId_accepts_absent IdManager.new "foo").2.2.2 (by decide)⟩

/-- C3: `RegisterId` on a candidate that is already committed returns `(candidate, false)` and
leaves the whole state, the committed set and the three counters, as it was. -/
theorem IdManager.RegisterId_rejects_present (m : IdManager) (id : String)
    (h : id ∈ m._existingIds) :
    (m.RegisterId id).1 = (id, false) ∧
    (m.RegisterId id).2 = m ∧
    (m.RegisterId id).2._existingIds = m._existingIds ∧
    (m.RegisterId id).2._nextNodeIdNum = m._nextNodeIdNum ∧
    (m.RegisterId id).2._nextSubgraphIdNum = m._nextSubgraphIdNum ∧
    (m.RegisterId id).2._nextCustomIdNum = m._nextCustomIdNum := by
  have hm : (m.RegisterId id).2 = m := by
    rw [IdManager.RegisterId_snd]
    exact IdManager.commit_of_mem m h
  refine ⟨by simp [IdManager.RegisterId_fst, h], hm, ?_, rfl, rfl, rfl⟩
  rw [hm]

/-- Witness for C3: registering "foo" a second time. -/
theorem IdManager.RegisterId_rejects_present_witness :
    "foo" ∈ (IdManager.new.commit "foo")._existingIds ∧
    ((IdManager.new.commit "foo").RegisterId "foo").1 = ("foo", false) ∧
    ((IdManager.new.commit "foo").RegisterId "foo").2 = IdManager.new.commit "foo" :=
  ⟨by decide,
    (IdManager.RegisterId_rejects_present (IdManager.new.commit "foo") "foo" (by decide)).1,
    (IdManager.RegisterId_rejects_present (IdManager.new.commit "foo") "foo" (by decide)).2.1⟩

/-! ## Properties of `ValidateCustomId` -/

/-- C4: `ValidateCustomId` on a base string that is not committed returns the base unchanged,
adds it (and nothing else) to the committed set, and leaves the disambiguation counter and
the two other counters as they were. -/
theorem IdManager.ValidateCustomId_unique_base (m : IdManager) (base : String)
    (h : base ∉ m._existingIds) :
    ∃ m', m.ValidateCustomId base = some (base, m') ∧
      m'._existingIds = insert base m._existingIds ∧
      m'._nextCustomIdNum = m._nextCustomIdNum ∧
      m'._nextNodeIdNum = m._nextNodeIdNum ∧
      m'._nextSubgraphIdNum = m._nextSubgraphIdNum := by
  refine ⟨m.commit base, ?_, rfl, rfl, rfl, rfl⟩
  simp [IdManager.ValidateCustomId, IdManager.ValidateCustomIdTraced_of_not_mem m base h]

/-- Witness for C4: "bar" offered to a manager that holds only "foo". -/
theorem IdManager.ValidateCustomId_unique_base_witness :
    "bar" ∉ (IdManager.new.commit "foo")._existingIds ∧
    ∃ m', (IdManager.new.commit "foo").ValidateCustomId "bar" = some ("bar", m') ∧
      m'._existingIds = insert "bar" (IdManager.new.commit "foo")._existingIds ∧
      m'._nextCustomIdNum = (IdManager.new.commit "foo")._nextCustomIdNum ∧
      m'._nextNodeIdNum = (IdManager.new.commit "foo")._nextNodeIdNum ∧
      m'._nextSubgraphIdNum = (IdManager.new.commit "foo")._nextSubgraphIdNum :=
  ⟨by decide,
    IdManager.ValidateCustomId_unique_base (IdManager.new.commit "foo") "bar" (by decide)⟩

/-- C9: on a fresh manager three successive calls `ValidateCustomId b` return `b` itself, then
`b` followed by "0", then `b` followed by "1"; the second differs from `b` and the third
differs from both.  For `b = "foo"` the three values are "foo", "foo0" and "foo1". -/
theorem IdManager.ValidateCustomId_three_times (b : String) :
    (∃ m1 m2 m3, IdManager.new.ValidateCustomId b = some (b, m1) ∧
      m1.ValidateCustomId b = some (b ++ "0", m2) ∧
      m2.ValidateCustomId b = some (b ++ "1", m3)) ∧
    b ++ "0" ≠ b ∧ b ++ "1" ≠ b ∧ b ++ "1" ≠ b ++ "0" ∧
    ((IdManager.new.ValidateCustomId "foo").bind fun r1 =>
      (r1.2.ValidateCustomId "foo").bind fun r2 =>
        (r2.2.ValidateCustomId "foo").map fun r3 => (r1.1, r2.1, r3.1)) =
      some ("foo", "foo0", "foo1") := by
  have e0 : b ++ "0" = b ++ toString 0 := rfl
  have e1 : b ++ "1" = b ++ toString 1 := rfl
  have n0 : b ++ toString 0 ≠ b := candidate_ne_base b 0
  have n1 : b ++ toString 1 ≠ b := candidate_ne_base b 1
  have n10 : b ++ toString 1 ≠ b ++ toString 0 := fun hh => absurd (candidate_inj hh) (by decide)
  refine ⟨⟨IdManager.new.commit b,
      ((IdManager.new.commit b).commit (b ++ toString 0)).setCounter .custom 1,
      ((((IdManager.new.commit b).commit (b ++ toString 0)).setCounter .custom 1).commit
        (b ++ toString 1)).setCounter .custom 2, ?_, ?_, ?_⟩,
    by rw [e0]; exact n0, by rw [e1]; exact n1, by rw [e0, e1]; exact n10, by decide⟩
  · simp [IdManager.ValidateCustomId,
      IdManager.ValidateCustomIdTraced_of_not_mem IdManager.new b (by simp [IdManager.new])]
  · have := IdManager.ValidateCustomIdTraced_of_least (IdManager.new.commit b) b 0
      (by simp) (Nat.le_refl _) (by simpa [IdManager.new] using n0)
      (fun j h1 h2 => absurd h2 (Nat.not_lt_zero j))
    rw [e0]
    simp [IdManager.ValidateCustomId, this]
  · have := IdManager.ValidateCustomIdTraced_of_least
      (((IdManager.new.commit b).commit (b ++ toString 0)).setCounter .custom 1) b 1
      (by simp) (Nat.le_refl _) (by simpa [IdManager.new] using ⟨n10, n1⟩)
      (fun j h1 h2 => by
        have h1' : 1 ≤ j := h1
        omega)
    rw [e1]
    simp [IdManager.ValidateCustomId, this]

/-! ## Properties of a session -/

/-- C1: a session of any calls of `GetNodeId`, `GetSubgraphId` and `ValidateCustomId`, in any
order and with any base strings, on a fresh manager: every call returns, one identifier per
call; the identifiers returned are pairwise distinct and are all committed at the end; and a
call made on any state returns an identifier that was not committed before the call and is
committed after it. -/
theorem IdManager.returned_ids_pairwise_distinct (nodeBase subgraphBase : String)
    (calls : List Call) :
    (∃ res m', IdManager.new.session nodeBase subgraphBase calls = some (res, m') ∧
      res.length = calls.length ∧ (res.map Prod.fst).Nodup ∧
      ∀ id ∈ res.map Prod.fst, id ∈ m'._existingIds) ∧
    (∀ (m : IdManager) (c : Call), ∃ id tr m',
      m.call nodeBase subgraphBase c = some ((id, tr), m') ∧
      id ∉ m._existingIds ∧ id ∈ m'._existingIds) := by
  constructor
  · obtain ⟨res, m', h1, h0, h2, h3, _⟩ :=
      IdManager.session_spec nodeBase subgraphBase calls IdManager.new
    exact ⟨res, m', h1, h0, h2, fun id hid => (h3 id hid).2⟩
  · intro m c
    obtain ⟨id, tr, m', h1, h2, h3, _⟩ := IdManager.call_spec nodeBase subgraphBase m c
    exact ⟨id, tr, m', h1, h2, by rw [h3]; exact Finset.mem_insert_self _ _⟩

set_option maxRecDepth 100000 in
/-- The colour "red" is authored at index 548 of `Color::strings`. -/
theorem Color.strings_red : Color.strings[548]? = some "red" := rfl

set_option maxRecDepth 100000 in
/-- Every table starts with the empty string. -/
theorem Domain.strings_zero (d : Domain) : d.strings[0]? = some "" := by
  cases d <;> rfl

/-- C6: for a domain with a `ToString` function (there are 24) and a value below `COUNT`,
`ToString` returns the entry of the domain's `strings` table at that index; for a value from
`COUNT` on it returns the empty string; and for `Color` the index 548, at which "red" is
authored, maps to "red". -/
theorem ToString_in_range (d : Domain) (COUNT val : Nat) (_ : d.hasToString = true) :
    (∀ h : val < d.strings.length, val < COUNT →
      ToString d COUNT val = some (d.strings.get ⟨val, h⟩)) ∧
    (COUNT ≤ val → ToString d COUNT val = some "") ∧
    (Color.strings[548]? = some "red" ∧
      (548 < COUNT → ToString .Color COUNT 548 = some "red")) ∧
    (Finset.univ.filter fun e : Domain => e.hasToString = true).card = 24 := by
  refine ⟨?_, ?_, ⟨Color.strings_red, ?_⟩, by decide⟩
  · intro h hlt
    simp [ToString, hlt, List.getElem?_eq_getElem h]
  · intro hge
    simp [ToString, Nat.not_lt.mpr hge, emptyString]
  · intro hlt
    simp only [ToString, hlt, if_true]
    exact Color.strings_red

set_option maxRecDepth 100000 in
/-- Witness for C6: `Color` with `COUNT` the length of its table, at the index of "red" and
at `COUNT` itself. -/
theorem ToString_in_range_witness :
    Domain.Color.hasToString = true ∧
    ToString .Color 656 548 = some (Domain.Color.strings.get ⟨548, by decide⟩) ∧
    ToString .Color 656 548 = some "red" ∧
    ToString .Color 656 656 = some "" :=
  ⟨rfl, (ToString_in_range .Color 656 548 rfl).1 (by decide) (by decide),
    (ToString_in_range .Color 656 548 rfl).2.2.1.2 (by decide),
    (ToString_in_range .Color 656 656 rfl).2.1 (by decide)⟩

/-- The two readings of the `ToString` body agree on the values from 0 on. -/
theorem ToStringInt_natCast (d : Domain) (COUNT val : Nat) :
    ToStringInt d COUNT (val : Int) = ToString d COUNT val := by
  simp [ToStringInt, ToString]

/-- C8: each of the 25 tables has the empty string at index 0, and every `ToString` function
returns the empty string for the value 0, whatever `COUNT` is. -/
theorem strings_zero_empty (d : Domain) (COUNT : Nat) :
    d.strings[0]? = some "" ∧
    (d.hasToString = true → ToString d COUNT 0 = some "") ∧
    Fintype.card Domain = 25 := by
  refine ⟨Domain.strings_zero d, ?_, by decide⟩
  intro _
  by_cases h : 0 < COUNT
  · simp only [ToString, h, if_true]
    exact Domain.strings_zero d
  · simp [ToString, h, emptyString]

/-- Witness for C8: `Color::ToString` at 0. -/
theorem strings_zero_empty_witness :
    Domain.Color.hasToString = true ∧ ToString .Color 656 0 = some "" :=
  ⟨rfl, (strings_zero_empty .Color 656).2.1 rfl⟩

/-! ## The three allocators, from any state -/

/-- The call `GetNodeId`, from any state: it returns the candidate of the least free node
counter value and leaves the state with that candidate committed and the node counter one
past that value. -/
theorem IdManager.GetNodeId_spec (nodeBase : String) (m : IdManager) :
    ∃ k, m._nextNodeIdNum ≤ k ∧ nodeBase ++ toString k ∉ m._existingIds ∧
      (∀ j, m._nextNodeIdNum ≤ j → j < k → nodeBase ++ toString j ∈ m._existingIds) ∧
      m.GetNodeId nodeBase =
        some (nodeBase ++ toString k,
          (m.commit (nodeBase ++ toString k)).setCounter .node (k + 1)) := by
  obtain ⟨k, h1, h2, h3, h4⟩ := IdManager.probe_total .node nodeBase m
  exact ⟨k, h1, h2, h3, by simp [IdManager.GetNodeId, h4]⟩

/-- The call `GetSubgraphId`, from any state: as `GetNodeId`, on the subgraph counter. -/
theorem IdManager.GetSubgraphId_spec (subgraphBase : String) (m : IdManager) :
    ∃ k, m._nextSubgraphIdNum ≤ k ∧ subgraphBase ++ toString k ∉ m._existingIds ∧
      (∀ j, m._nextSubgraphIdNum ≤ j → j < k →
        subgraphBase ++ toString j ∈ m._existingIds) ∧
      m.GetSubgraphId subgraphBase =
        some (subgraphBase ++ toString k,
          (m.commit (subgraphBase ++ toString k)).setCounter .subgraph (k + 1)) := by
  obtain ⟨k, h1, h2, h3, h4⟩ := IdManager.probe_total .subgraph subgraphBase m
  exact ⟨k, h1, h2, h3, by simp [IdManager.GetSubgraphId, h4]⟩

/-- The call `ValidateCustomId`, from any state: it returns an identifier and leaves the
state with that identifier committed and the disambiguation counter at some value not below
the one before. -/
theorem IdManager.ValidateCustomId_spec (m : IdManager) (customId : String) :
    ∃ id v, m._nextCustomIdNum ≤ v ∧
      m.ValidateCustomId customId = some (id, (m.commit id).setCounter .custom v) := by
  by_cases h : customId ∈ m._existingIds
  · obtain ⟨k, h1, _, _, h4⟩ := IdManager.ValidateCustomIdTraced_of_mem m customId h
    exact ⟨customId ++ toString k, k + 1, Nat.le_succ_of_le h1,
      by simp [IdManager.ValidateCustomId, h4]⟩
  · refine ⟨customId, m._nextCustomIdNum, Nat.le_refl _, ?_⟩
    simp [IdManager.ValidateCustomId, IdManager.ValidateCustomIdTraced_of_not_mem m customId h]
    cases m
    rfl

/-! ## Termination -/

/-- C14: an identifier that is committed stays committed through every operation:
`RegisterId` of any candidate, `GetNodeId`, `GetSubgraphId`, `ValidateCustomId` of any base
(each of which returns), and hence through any session of calls. -/
theorem IdManager.committed_ids_persist (nodeBase subgraphBase : String) (m : IdManager)
    (x : String) (h : x ∈ m._existingIds) (id base : String) (calls : List Call) :
    x ∈ (m.RegisterId id).2._existingIds ∧
    (∃ r m', m.GetNodeId nodeBase = some (r, m') ∧ x ∈ m'._existingIds) ∧
    (∃ r m', m.GetSubgraphId subgraphBase = some (r, m') ∧ x ∈ m'._existingIds) ∧
    (∃ r m', m.ValidateCustomId base = some (r, m') ∧ x ∈ m'._existingIds) ∧
    (∃ res m', m.session nodeBase subgraphBase calls = some (res, m') ∧
      x ∈ m'._existingIds) := by
  refine ⟨?_, ?_, ?_, ?_, ?_⟩
  · rw [IdManager.RegisterId_snd]
    exact Finset.mem_insert_of_mem h
  · obtain ⟨k, _, _, _, h4⟩ := IdManager.GetNodeId_spec nodeBase m
    exact ⟨_, _, h4, by simpa using Or.inr h⟩
  · obtain ⟨k, _, _, _, h4⟩ := IdManager.GetSubgraphId_spec subgraphBase m
    exact ⟨_, _, h4, by simpa using Or.inr h⟩
  · obtain ⟨r, v, _, h4⟩ := IdManager.ValidateCustomId_spec m base
    exact ⟨_, _, h4, by simpa using Or.inr h⟩
  · obtain ⟨res, m', h1, _, _, _, hsub, _⟩ :=
      IdManager.session_spec nodeBase subgraphBase calls m
    exact ⟨res, m', h1, hsub h⟩

/-- Witness for C14: "foo" committed, then `RegisterId "bar"` and `ValidateCustomId "foo"`. -/
theorem IdManager.committed_ids_persist_witness :
    "foo" ∈ (IdManager.new.commit "foo")._existingIds ∧
    "foo" ∈ ((IdManager.new.commit "foo").RegisterId "bar").2._existingIds ∧
    (∃ r m', (IdManager.new.commit "foo").ValidateCustomId "foo" = some (r, m') ∧
      "foo" ∈ m'._existingIds) :=
  ⟨by decide,
    (IdManager.committed_ids_persist "n" "s" (IdManager.new.commit "foo") "foo" (by decide)
      "bar" "foo" [.GetNodeId]).1,
    (IdManager.committed_ids_persist "n" "s" (IdManager.new.commit "foo") "foo" (by decide)
      "bar" "foo" [.GetNodeId]).2.2.2.1⟩

/-- C15: `GetNodeId` leaves the subgraph counter and the disambiguation counter as they
were, `GetSubgraphId` leaves the node counter and the disambiguation counter as they were, and
`ValidateCustomId`, whether or not the base collides, leaves the node counter and the
subgraph counter as they were. -/
theorem IdManager.counters_independent (nodeBase subgraphBase : String) (m : IdManager)
    (base : String) :
    (∃ r m', m.GetNodeId nodeBase = some (r, m') ∧
      m'._nextSubgraphIdNum = m._nextSubgraphIdNum ∧
      m'._nextCustomIdNum = m._nextCustomIdNum) ∧
    (∃ r m', m.GetSubgraphId subgraphBase = some (r, m') ∧
      m'._nextNodeIdNum = m._nextNodeIdNum ∧
      m'._nextCustomIdNum = m._nextCustomIdNum) ∧
    (∃ r m', m.ValidateCustomId base = some (r, m') ∧
      m'._nextNodeIdNum = m._nextNodeIdNum ∧
      m'._nextSubgraphIdNum = m._nextSubgraphIdNum) := by
  refine ⟨?_, ?_, ?_⟩
  · obtain ⟨k, _, _, _, h4⟩ := IdManager.GetNodeId_spec nodeBase m
    exact ⟨_, _, h4, rfl, rfl⟩
  · obtain ⟨k, _, _, _, h4⟩ := IdManager.GetSubgraphId_spec subgraphBase m
    exact ⟨_, _, h4, rfl, rfl⟩
  · obtain ⟨r, v, _, h4⟩ := IdManager.ValidateCustomId_spec m base
    exact ⟨_, _, h4, rfl, rfl⟩

/-- C16: registering `a` then `b` leaves the same committed set (indeed the same state) as
registering `b` then `a`; and registering `a` a second time leaves the state of the first
registration and reports `false`. -/
theorem IdManager.RegisterId_order_irrelevant (m : IdManager) (a b : String) :
    ((m.RegisterId a).2.RegisterId b).2._existingIds =
      ((m.RegisterId b).2.RegisterId a).2._existingIds ∧
    ((m.RegisterId a).2.RegisterId b).2 = ((m.RegisterId b).2.RegisterId a).2 ∧
    ((m.RegisterId a).2.RegisterId a).2 = (m.RegisterId a).2 ∧
    ((m.RegisterId a).2.RegisterId a).1 = (a, false) := by
  have hset : insert b (insert a m._existingIds) = insert a (insert b m._existingIds) :=
    Finset.Insert.comm b a m._existingIds
  have hstate : ((m.RegisterId a).2.RegisterId b).2 = ((m.RegisterId b).2.RegisterId a).2 := by
    simp only [IdManager.RegisterId_snd, IdManager.commit, hset]
  refine ⟨by rw [hstate], hstate, ?_, ?_⟩
  · rw [IdManager.RegisterId_snd, IdManager.RegisterId_snd]
    exact IdManager.commit_of_mem _ (by simp)
  · simp [IdManager.RegisterId_fst, IdManager.RegisterId_snd]

/-! ## The counters -/

/-- Drawing from one counter of the spec `n` times in a row. -/
theorem IdManager.counter_iterate_next (c : Counter) (m : IdManager) (n : Nat) :
    ((fun s : IdManager => (s.next c).2)^[n] m).counter c = m.counter c + n := by
  induction n generalizing m with
  | zero => rfl
  | succ n ih =>
    rw [Function.iterate_succ_apply, ih]
    simp
    omega

/-- Setting a counter to the value it has changes nothing. -/
theorem IdManager.setCounter_counter (c : Counter) (m : IdManager) :
    m.setCounter c (m.counter c) = m := by
  cases c <;> rfl

/-- The state after `n` steps of one counter of the spec. -/
theorem IdManager.iterate_next_eq (c : Counter) (n : Nat) :
    ∀ m : IdManager,
      (fun s : IdManager => (s.next c).2)^[n] m = m.setCounter c (m.counter c + n) := by
  induction n with
  | zero => intro m; exact (IdManager.setCounter_counter c m).symm
  | succ n ih =>
    intro m
    rw [Function.iterate_succ_apply, ih]
    simp only [IdManager.next_snd, IdManager.counter_setCounter,
      IdManager.setCounter_setCounter]
    congr 1
    omega

/-- An accessor of the source returns the current value of its counter. -/
theorem IdManager.draw_fst (c : Counter) (m : IdManager) : (m.draw c).1 = m.counter c := by
  cases c <;> rfl

/-- Below `ULONG_MAX` an accessor of the source is the counter step of the spec. -/
theorem IdManager.draw_eq_next (c : Counter) (m : IdManager) (h : m.counter c < ULONG_MAX) :
    m.draw c = m.next c := by
  cases c
  · have h1 : m._nextNodeIdNum < ULONG_MAX := h
    simp only [IdManager.draw, IdManager.next, IdManager.GetNextNodeIdNum,
      Nat.mod_eq_of_lt (Nat.succ_lt_succ h1)]
  · have h1 : m._nextSubgraphIdNum < ULONG_MAX := h
    simp only [IdManager.draw, IdManager.next, IdManager.GetNextSubgraphIdNum,
      Nat.mod_eq_of_lt (Nat.succ_lt_succ h1)]
  · have h1 : m._nextCustomIdNum < ULONG_MAX := h
    simp only [IdManager.draw, IdManager.next, IdManager.GetNextCustomIdNum,
      Nat.mod_eq_of_lt (Nat.succ_lt_succ h1)]

/-- Drawing `n` times in a row with the accessor of the source, while the counter stays at or
below `ULONG_MAX`, is drawing `n` times from the counter of the spec. -/
theorem IdManager.iterate_draw_eq (c : Counter) (n : Nat) :
    ∀ m : IdManager, m.counter c + n ≤ ULONG_MAX →
      (fun s : IdManager => (s.draw c).2)^[n] m = (fun s : IdManager => (s.next c).2)^[n] m := by
  induction n with
  | zero => intro m _; rfl
  | succ n ih =>
    intro m h
    rw [Function.iterate_succ_apply, Function.iterate_succ_apply,
      IdManager.draw_eq_next c m (by omega)]
    apply ih
    simp
    omega

/-- The value returned by the draw that follows `n` draws from the same counter, while the
counter stays at or below `ULONG_MAX`. -/
theorem IdManager.draw_after (c : Counter) (m : IdManager) (n : Nat)
    (h : m.counter c + n ≤ ULONG_MAX) :
    (((fun s : IdManager => (s.draw c).2)^[n] m).draw c).1 = m.counter c + n := by
  rw [IdManager.draw_fst, IdManager.iterate_draw_eq c n m h, IdManager.counter_iterate_next]

/-- Counterexample to C19 as stated.  The state of a fresh manager after `ULONG_MAX` draws
from the node counter has that counter at `ULONG_MAX`; there `GetNextNodeIdNum` returns
`ULONG_MAX` and leaves the counter at 0: not one greater than before but smaller; and the
draw after that returns 0, the value that the first draw of a fresh manager returned. -/
theorem IdManager.counter_wraps_at_ULONG_MAX :
    (fun s : IdManager => s.GetNextNodeIdNum.2)^[ULONG_MAX] IdManager.new =
      IdManager.new.setCounter .node ULONG_MAX ∧
    (IdManager.new.setCounter .node ULONG_MAX).GetNextNodeIdNum = (ULONG_MAX, IdManager.new) ∧
    (IdManager.new.setCounter .node ULONG_MAX).GetNextNodeIdNum.2._nextNodeIdNum ≠
      (IdManager.new.setCounter .node ULONG_MAX)._nextNodeIdNum + 1 ∧
    (IdManager.new.setCounter .node ULONG_MAX).GetNextNodeIdNum.2._nextNodeIdNum <
      (IdManager.new.setCounter .node ULONG_MAX)._nextNodeIdNum ∧
    (IdManager.new.setCounter .node ULONG_MAX).GetNextNodeIdNum.2.GetNextNodeIdNum.1 =
      IdManager.new.GetNextNodeIdNum.1 := by
  refine ⟨?_, by decide, by decide, by decide, by decide⟩
  have h := IdManager.iterate_draw_eq .node ULONG_MAX IdManager.new (by decide)
  rw [IdManager.iterate_next_eq] at h
  exact h

/-- C19, amended: a fresh manager has its three counters at 0 and no committed identifier;
each of `GetNextNodeIdNum`, `GetNextSubgraphIdNum` and `GetNextCustomIdNum` returns the
current value of its counter, leaves the two other counters and the committed set as they
were, and leaves its own counter one greater when it was below `ULONG_MAX` (in general: one
greater modulo `ULONG_MAX + 1`); so as long as a counter stays at or below `ULONG_MAX`, as
over the first 2^64 draws of a fresh manager, the value it returns after `n` earlier draws is
its starting value plus `n`: never smaller than before, and never the same twice. -/
theorem IdManager.counter_accessors_below_wrap (m : IdManager) :
    (IdManager.new._nextNodeIdNum = 0 ∧ IdManager.new._nextSubgraphIdNum = 0 ∧
      IdManager.new._nextCustomIdNum = 0 ∧ IdManager.new._existingIds = ∅) ∧
    (m.GetNextNodeIdNum.1 = m._nextNodeIdNum ∧
      m.GetNextNodeIdNum.2._nextNodeIdNum = (m._nextNodeIdNum + 1) % (ULONG_MAX + 1) ∧
      (m._nextNodeIdNum < ULONG_MAX →
        m.GetNextNodeIdNum.2._nextNodeIdNum = m._nextNodeIdNum + 1) ∧
      m.GetNextNodeIdNum.2._nextSubgraphIdNum = m._nextSubgraphIdNum ∧
      m.GetNextNodeIdNum.2._nextCustomIdNum = m._nextCustomIdNum ∧
      m.GetNextNodeIdNum.2._existingIds = m._existingIds) ∧
    (m.GetNextSubgraphIdNum.1 = m._nextSubgraphIdNum ∧
      m.GetNextSubgraphIdNum.2._nextSubgraphIdNum =
        (m._nextSubgraphIdNum + 1) % (ULONG_MAX + 1) ∧
      (m._nextSubgraphIdNum < ULONG_MAX →
        m.GetNextSubgraphIdNum.2._nextSubgraphIdNum = m._nextSubgraphIdNum + 1) ∧
      m.GetNextSubgraphIdNum.2._nextNodeIdNum = m._nextNodeIdNum ∧
      m.GetNextSubgraphIdNum.2._nextCustomIdNum = m._nextCustomIdNum ∧
      m.GetNextSubgraphIdNum.2._existingIds = m._existingIds) ∧
    (m.GetNextCustomIdNum.1 = m._nextCustomIdNum ∧
      m.GetNextCustomIdNum.2._nextCustomIdNum = (m._nextCustomIdNum + 1) % (ULONG_MAX + 1) ∧
      (m._nextCustomIdNum < ULONG_MAX →
        m.GetNextCustomIdNum.2._nextCustomIdNum = m._nextCustomIdNum + 1) ∧
      m.GetNextCustomIdNum.2._nextNodeIdNum = m._nextNodeIdNum ∧
      m.GetNextCustomIdNum.2._nextSubgraphIdNum = m._nextSubgraphIdNum ∧
      m.GetNextCustomIdNum.2._existingIds = m._existingIds) ∧
    (∀ (c : Counter) (n : Nat), m.counter c + n ≤ ULONG_MAX →
      (((fun s : IdManager => (s.draw c).2)^[n] m).draw c).1 = m.counter c + n) ∧
    (∀ (c : Counter) (i j : Nat), m.counter c + i ≤ ULONG_MAX → m.counter c + j ≤ ULONG_MAX →
      (((fun s : IdManager => (s.draw c).2)^[i] m).draw c).1 =
        (((fun s : IdManager => (s.draw c).2)^[j] m).draw c).1 → i = j) ∧
    (∀ (c : Counter) (i j : Nat), i ≤ j → m.counter c + j ≤ ULONG_MAX →
      (((fun s : IdManager => (s.draw c).2)^[i] m).draw c).1 ≤
        (((fun s : IdManager => (s.draw c).2)^[j] m).draw c).1) := by
  have hstep : ∀ v : Nat, v < ULONG_MAX → (v + 1) % (ULONG_MAX + 1) = v + 1 :=
    fun v hv => Nat.mod_eq_of_lt (Nat.succ_lt_succ hv)
  refine ⟨⟨rfl, rfl, rfl, rfl⟩, ⟨rfl, rfl, hstep _, rfl, rfl, rfl⟩,
    ⟨rfl, rfl, hstep _, rfl, rfl, rfl⟩, ⟨rfl, rfl, hstep _, rfl, rfl, rfl⟩,
    fun c n h => IdManager.draw_after c m n h, ?_, ?_⟩
  · intro c i j hi hj hij
    rw [IdManager.draw_after c m i hi, IdManager.draw_after c m j hj] at hij
    omega
  · intro c i j hij hj
    rw [IdManager.draw_after c m i (by omega), IdManager.draw_after c m j hj]
    omega

/-- Witness for C19, amended: on a fresh manager the draw from the node counter that follows
3 draws returns 3, and the last draw before the wrap returns `ULONG_MAX`. -/
theorem IdManager.counter_accessors_below_wrap_witness :
    IdManager.new.counter .node + 3 ≤ ULONG_MAX ∧
    (((fun s : IdManager => (s.draw .node).2)^[3] IdManager.new).draw .node).1 =
      IdManager.new.counter .node + 3 ∧
    IdManager.new.counter .node + ULONG_MAX ≤ ULONG_MAX ∧
    (((fun s : IdManager => (s.draw .node).2)^[ULONG_MAX] IdManager.new).draw .node).1 =
      IdManager.new.counter .node + ULONG_MAX :=
  ⟨by decide,
    (IdManager.counter_accessors_below_wrap IdManager.new).2.2.2.2.1 .node 3 (by decide),
    by decide,
    (IdManager.counter_accessors_below_wrap IdManager.new).2.2.2.2.1 .node ULONG_MAX
      (by decide)⟩

/-! ## The tokens of a table -/

theorem codesBelow_irrefl : ∀ l : List Nat, codesBelow l l = false
  | [] => rfl
  | a :: as => by simp [codesBelow, codesBelow_irrefl as]

theorem codesBelow_trans : ∀ l1 l2 l3 : List Nat,
    codesBelow l1 l2 = true → codesBelow l2 l3 = true → codesBelow l1 l3 = true
  | [], [], _, h, _ => by simp [codesBelow] at h
  | [], _ :: _, [], _, h => by simp [codesBelow] at h
  | [], _ :: _, _ :: _, _, _ => by simp [codesBelow]
  | _ :: _, [], _, h, _ => by simp [codesBelow] at h
  | _ :: _, _ :: _, [], _, h => by simp [codesBelow] at h
  | a :: as, b :: bs, c :: cs, h1, h2 => by
    simp only [codesBelow] at h1 h2 ⊢
    by_cases hab : a < b
    · by_cases hbc : b < c
      · have : a < c := lt_trans hab hbc
        simp [this]
      · by_cases hbc2 : b = c
        · subst hbc2; simp [hab]
        · simp [hbc, hbc2] at h2
    · by_cases hab2 : a = b
      · subst hab2
        by_cases hbc : a < c
        · simp [hbc]
        · by_cases hbc2 : a = c
          · subst hbc2
            simp only [hab, if_false, if_true] at h1 h2 ⊢
            exact codesBelow_trans as bs cs h1 h2
          · simp [hbc, hbc2] at h2
      · simp [hab, hab2] at h1

theorem strictlyAscending_pairwise :
    ∀ l : List String, strictlyAscending l = true →
      l.Pairwise (fun a b => codesBelow (codes a) (codes b) = true)
  | [], _ => List.Pairwise.nil
  | [_], _ => List.pairwise_singleton _ _
  | a :: b :: t, h => by
    simp only [strictlyAscending, Bool.and_eq_true] at h
    have ih := strictlyAscending_pairwise (b :: t) h.2
    refine List.Pairwise.cons ?_ ih
    intro x hx
    rcases List.mem_cons.mp hx with rfl | hx
    · exact h.1
    · exact codesBelow_trans _ _ _ h.1 ((List.pairwise_cons.mp ih).1 x hx)

/-- A list of strings in strictly ascending order has no string twice. -/
theorem strictlyAscending_nodup (l : List String) (h : strictlyAscending l = true) :
    l.Nodup :=
  (strictlyAscending_pairwise l h).imp (fun {a b} hab heq => by
    subst heq
    rw [codesBelow_irrefl] at hab
    exact Bool.false_ne_true hab)

set_option maxRecDepth 1000000 in
/-- The table `Color::strings` is in strictly ascending order. -/
theorem Color.strings_ascending : strictlyAscending Color.strings = true := by decide

set_option maxRecDepth 1000000 in
/-- No table has a token twice. -/
theorem Domain.strings_nodup (d : Domain) : d.strings.Nodup := by
  cases d
  case Color => exact strictlyAscending_nodup _ Color.strings_ascending
  all_goals decide

set_option maxRecDepth 1000000 in
/-- In every table only the first entry is empty. -/
theorem Domain.strings_tail_nonempty (d : Domain) : ∀ s ∈ d.strings.tail, s ≠ "" := by
  cases d <;> decide

/-- An entry at an index from 1 on is an entry of the tail. -/
theorem get_mem_tail (l : List String) (i : Nat) (h : i < l.length) (hi : 1 ≤ i) :
    l.get ⟨i, h⟩ ∈ l.tail := by
  cases l with
  | nil => exact absurd h (Nat.not_lt_zero _)
  | cons a t =>
    cases i with
    | zero => omega
    | succ j => exact List.getElem_mem _

/-- C17: in every table the entry at an index from 1 up to the end of the table is not
empty; hence a `ToString` function returns the empty string only for the value 0 or for a
value not below `COUNT`, and for a value from 1 on, below `COUNT` and inside the table, it
returns a token that is not empty. -/
theorem strings_nonempty_after_zero (d : Domain) (COUNT i : Nat) :
    (∀ h : i < d.strings.length, 1 ≤ i → d.strings.get ⟨i, h⟩ ≠ "") ∧
    (d.hasToString = true → ToString d COUNT i = some "" → i = 0 ∨ COUNT ≤ i) ∧
    (d.hasToString = true → 1 ≤ i → i < COUNT → i < d.strings.length →
      ∃ s, ToString d COUNT i = some s ∧ s ≠ "") := by
  have hne : ∀ h : i < d.strings.length, 1 ≤ i → d.strings.get ⟨i, h⟩ ≠ "" :=
    fun h hi => Domain.strings_tail_nonempty d _ (get_mem_tail d.strings i h hi)
  refine ⟨hne, ?_, ?_⟩
  · intro _ hres
    by_cases hC : i < COUNT
    · left
      by_contra hi
      simp only [ToString, hC, if_true] at hres
      obtain ⟨hlt, hget⟩ := List.getElem?_eq_some.mp hres
      exact hne hlt (Nat.one_le_iff_ne_zero.mpr hi) hget
    · right
      omega
  · intro _ hi hC hlen
    refine ⟨d.strings.get ⟨i, hlen⟩, ?_, hne hlen hi⟩
    simp [ToString, hC, List.getElem?_eq_getElem hlen]

set_option maxRecDepth 100000 in
/-- Witness for C17: `Color` at the index of "red". -/
theorem strings_nonempty_after_zero_witness :
    Domain.Color.hasToString = true ∧ 1 ≤ 548 ∧ 548 < 656 ∧
    548 < Domain.Color.strings.length ∧
    ∃ s, ToString .Color 656 548 = some s ∧ s ≠ "" :=
  ⟨rfl, by decide, by decide, by decide,
    (strings_nonempty_after_zero .Color 656 548).2.2 rfl (by decide) (by decide) (by decide)⟩

/-- C18: no table has the same token at two different indices; hence a `ToString` function
returns different tokens for two different values that are below `COUNT` and inside the
table. -/
theorem strings_pairwise_distinct (d : Domain) (COUNT i j : Nat) :
    d.strings.Nodup ∧
    (∀ (hi : i < d.strings.length) (hj : j < d.strings.length), i ≠ j →
      d.strings.get ⟨i, hi⟩ ≠ d.strings.get ⟨j, hj⟩) ∧
    (d.hasToString = true → i < COUNT → j < COUNT → i < d.strings.length →
      j < d.strings.length → ToString d COUNT i = ToString d COUNT j → i = j) := by
  have hnd := Domain.strings_nodup d
  have hinj : ∀ (hi : i < d.strings.length) (hj : j < d.strings.length),
      d.strings.get ⟨i, hi⟩ = d.strings.get ⟨j, hj⟩ → i = j := by
    intro hi hj heq
    have := (List.Nodup.get_inj_iff hnd).mp heq
    exact Fin.mk.inj_iff.mp this
  refine ⟨hnd, fun hi hj hne heq => hne (hinj hi hj heq), ?_⟩
  intro _ hiC hjC hi hj heq
  simp only [ToString, hiC, hjC, if_true, List.getElem?_eq_getElem hi,
    List.getElem?_eq_getElem hj, Option.some.injEq] at heq
  exact hinj hi hj heq

set_option maxRecDepth 100000 in
/-- Witness for C18: `Color` at the indices of "red" and "red1". -/
theorem strings_pairwise_distinct_witness :
    Domain.Color.hasToString = true ∧
    (ToString .Color 656 548 = ToString .Color 656 549 → 548 = 549) ∧
    ToString .Color 656 548 = some "red" ∧ ToString .Color 656 549 = some "red1" :=
  ⟨rfl,
    (strings_pairwise_distinct .Color 656 548 549).2.2 rfl (by decide) (by decide)
      (by decide) (by decide),
    by decide, by decide⟩

end DotWriter
